import Mathlib

/-!
Verification of the connection-scoped audio/translation orchestration layer
of the video-call backend (`app/index.js`).

JavaScript strings are modelled as lists of characters (`JSStr`), numbers
as `Int`/`Nat`, absent (`undefined`/`null`/non-string) fields as `Option`,
and fallible code as `Except`.  External collaborators (the speech-to-text
and translation services) are modelled as abstract outcomes supplied to the
processing function.
-/

/-- JavaScript strings, modelled as lists of characters. -/
abbrev JSStr := List Char

/-- The characters matched by the JavaScript regexp class `\s`
(also the set removed by `String.prototype.trim`). -/
def isJsWs (c : Char) : Bool :=
  let n := c.toNat
  n == 9 || n == 10 || n == 11 || n == 12 || n == 13 || n == 32 ||
  n == 0xa0 || n == 0x1680 || (decide (0x2000 ≤ n) && decide (n ≤ 0x200a)) ||
  n == 0x2028 || n == 0x2029 || n == 0x202f || n == 0x205f ||
  n == 0x3000 || n == 0xfeff

/-- JS `s.trim()`. -/
def jsTrim (s : JSStr) : JSStr :=
  ((s.dropWhile isJsWs).reverse.dropWhile isJsWs).reverse

/-- JS `s.toLowerCase()` (ASCII part, which is all the code relies on). -/
def jsToLower (s : JSStr) : JSStr := s.map Char.toLower

/-- JS `s.toUpperCase()` (ASCII part, which is all the code relies on). -/
def jsToUpper (s : JSStr) : JSStr := s.map Char.toUpper

/-- JS `s.startsWith(p)`. -/
def jsStartsWith : JSStr → JSStr → Bool
  | _, [] => true
  | [], _ :: _ => false
  | c :: s, d :: p => c == d && jsStartsWith s p

/-- JS `s.split(sep)` for a one-character separator. -/
def jsSplitOn (sep : Char) : JSStr → List JSStr
  | [] => [[]]
  | c :: rest =>
    let r := jsSplitOn sep rest
    if c == sep then [] :: r
    else
      match r with
      | h :: t => (c :: h) :: t
      | [] => [[c]]

/-- Drop everything up to and including the first occurrence of `ch`. -/
def dropThroughChar (ch : Char) : JSStr → JSStr
  | [] => []
  | c :: rest => if c == ch then rest else dropThroughChar ch rest

/-- JS `s.slice(s.indexOf(",") + 1)`: when no comma is present,
`indexOf` is `-1` and the slice returns the whole string. -/
def jsSliceAfterComma (s : JSStr) : JSStr :=
  if s.contains ',' then dropThroughChar ',' s else s

/-- JS `s.replace(/\s/g, "")`. -/
def removeJsWs (s : JSStr) : JSStr := s.filter (fun c => !(isJsWs c))

/-- Characters admitted by the regexp `[A-Za-z0-9+/=]` of
`normalizeAudioToBase64`. -/
def isBase64Char (c : Char) : Bool :=
  c.isAlpha || c.isDigit || c == '+' || c == '/' || c == '='

/-- The base64 alphabet, in order. -/
def b64Alphabet : JSStr :=
  "ABCDEFGHIJKLMNOPQRSTUVWXYZabcdefghijklmnopqrstuvwxyz0123456789+/".toList

/-- The base64 digit for a 6-bit value. -/
def b64Char (n : Nat) : Char := b64Alphabet.getD n 'A'

/-- `Buffer.from(bytes).toString("base64")`: standard base64 with padding.
`Buffer.from` truncates each element to a byte, hence the `% 256`. -/
def base64EncodeBytes : List Nat → JSStr
  | [] => []
  | [a] =>
    let a := a % 256
    [b64Char (a / 4), b64Char (a % 4 * 16), '=', '=']
  | [a, b] =>
    let a := a % 256
    let b := b % 256
    [b64Char (a / 4), b64Char (a % 4 * 16 + b / 16), b64Char (b % 16 * 4), '=']
  | a :: b :: c :: rest =>
    let x := a % 256
    let y := b % 256
    let z := c % 256
    b64Char (x / 4) :: b64Char (x % 4 * 16 + y / 16) ::
      b64Char (y % 16 * 4 + z / 64) :: b64Char (z % 64) :: base64EncodeBytes rest

/-- Byte length of `Buffer.from(s, "base64")` for a string of base64-class
characters: the forgiving decoder of Node stops at the first `=` and yields
`3 * m / 4` bytes from the `m` preceding digits. -/
def base64DecodedLen (s : JSStr) : Nat :=
  3 * (s.takeWhile (fun c => c != '=')).length / 4

/-- `isValidLanguageCode` (`app/index.js` lines 97-99): the trimmed string
must match `/^[a-z]{2,3}(?:-[A-Za-z]{2,8})*$/i`. -/
def isValidLanguageCode (s : JSStr) : Bool :=
  let t := jsTrim s
  match jsSplitOn '-' t with
  | [] => false
  | p0 :: rest =>
    (decide (2 ≤ p0.length) && decide (p0.length ≤ 3) && p0.all Char.isAlpha) &&
    rest.all fun p =>
      decide (2 ≤ p.length) && decide (p.length ≤ 8) && p.all Char.isAlpha

/-- `isValidLanguageCode` applied to a possibly-absent / non-string value
(the `typeof languageCode === "string"` guard). -/
def isValidLanguageCodeOpt : Option JSStr → Bool
  | none => false
  | some s => isValidLanguageCode s

/-- `normalizeTranslationLanguageCode` (`app/index.js` lines 101-114).
`none` models `undefined`/`null`; the empty string is JS-falsy as well. -/
def normalizeTranslationLanguageCode (languageCode : Option JSStr) : JSStr :=
  match languageCode with
  | none => "en".toList
  | some s =>
    if s = [] then "en".toList
    else
      let normalized := jsToLower (jsTrim s)
      if jsStartsWith normalized ("my".toList) then "my".toList
      else if jsStartsWith normalized ("en".toList) then "en".toList
      else (jsSplitOn '-' normalized).headD []

/-- `resolveTargetLanguage` (`app/index.js` lines 116-128). -/
def resolveTargetLanguage (sourceLanguageCode : JSStr)
    (requestedTargetLanguage : Option JSStr) : JSStr :=
  let fromSource :=
    let source := normalizeTranslationLanguageCode (some sourceLanguageCode)
    if source = "en".toList then "my".toList else "en".toList
  match requestedTargetLanguage with
  | none => fromSource
  | some r =>
    if isValidLanguageCode r then
      let normalizedRequested := normalizeTranslationLanguageCode (some r)
      if normalizedRequested = "en".toList ∨ normalizedRequested = "my".toList then
        normalizedRequested
      else fromSource
    else fromSource

example : normalizeTranslationLanguageCode (some ("EN-GB".toList)) = "en".toList := by decide
example : normalizeTranslationLanguageCode (some ("my-MM".toList)) = "my".toList := by decide
example : normalizeTranslationLanguageCode (some ("ja-JP".toList)) = "ja".toList := by decide
example : normalizeTranslationLanguageCode (some ("fr".toList)) = "fr".toList := by decide
example : resolveTargetLanguage ("my-MM".toList) (some ("fr".toList)) = "en".toList := by decide

/-! Error codes and messages used by the audio pipeline (`app/index.js`). -/

def codeBackpressure : String := "STT_BACKPRESSURE"
def msgBackpressure : String := "Too many queued audio chunks"
def codeRateLimited : String := "STT_RATE_LIMITED"
def msgRateLimited : String := "Too many audio requests in a short time"
def codeInvalidPayload : String := "STT_INVALID_PAYLOAD"
def codeProcessingFailed : String := "STT_PROCESSING_FAILED"
def msgProcessingFailed : String := "Unable to process this audio chunk"
def msgInvalidPayload : String := "Invalid payload"
def msgMissingRecipient : String := "Missing recipient id"
def msgInvalidSampleRate : String := "Invalid sample rate"
def msgEmptyAudio : String := "Empty audio payload"
def msgNotBase64 : String := "Audio payload is not valid base64"
def msgUnsupportedAudio : String := "Unsupported audio payload type"
def msgInvalidAudioSize : String := "Audio payload size is invalid"

/-! Configuration constants, at their defaults (`app/index.js` lines 16-31). -/

def MAX_AUDIO_BYTES : Nat := 1024 * 1024
def RATE_LIMIT_WINDOW_MS : Nat := 10000
def RATE_LIMIT_MAX_REQUESTS : Nat := 20
def MAX_STT_PENDING_REQUESTS : Int := 8

/-- `ALLOWED_ENCODINGS` (`app/index.js` lines 22-31). -/
def ALLOWED_ENCODINGS : List JSStr :=
  ["LINEAR16".toList, "WEBM_OPUS".toList, "OGG_OPUS".toList, "FLAC".toList,
   "MULAW".toList, "AMR".toList, "AMR_WB".toList,
   "SPEEX_WITH_HEADER_BYTE".toList]

/-- The possible JS values of the `audio` field of an `audioRecording`
payload, as `normalizeAudioToBase64` distinguishes them.  `num`, `obj` and
`jsNull` model a number, a plain (non-array, non-buffer) object and
`null`. -/
inductive JsAudio where
  | str (s : JSStr)
  | buffer (bytes : List Nat)
  | uint8array (bytes : List Nat)
  | numArray (nums : List Nat)
  | num (n : Int)
  | obj
  | jsNull
deriving DecidableEq

/-- The string-payload tail of `normalizeAudioToBase64`
(`app/index.js` lines 135-142): strip whitespace, reject the empty string,
then validate the base64 character class. -/
def normalizeBase64String (withoutDataUri : JSStr) : Except String JSStr :=
  let normalized := removeJsWs withoutDataUri
  if normalized = [] then .error msgEmptyAudio
  else if normalized.all isBase64Char then .ok normalized
  else .error msgNotBase64

/-- `normalizeAudioToBase64` (`app/index.js` lines 130-154). -/
def normalizeAudioToBase64 : JsAudio → Except String JSStr
  | .str s =>
    normalizeBase64String
      (if jsStartsWith s ("data:".toList) then jsSliceAfterComma s else s)
  | .buffer bytes => .ok (base64EncodeBytes bytes)
  | .uint8array bytes => .ok (base64EncodeBytes bytes)
  | .numArray nums => .ok (base64EncodeBytes nums)
  | .num _ => .error msgUnsupportedAudio
  | .obj => .error msgUnsupportedAudio
  | .jsNull => .error msgUnsupportedAudio

/-- An inbound `audioRecording` payload.  `none` in a string-typed field
models an absent or non-string JS value; `sampleRateHertz` is restricted to
integral numeric values (`some 0` is JS-falsy, like `none`). -/
structure AudioPayload where
  toId : Option JSStr
  language : Option JSStr
  targetLanguage : Option JSStr
  encoding : Option JSStr
  sampleRateHertz : Option Int
  audio : JsAudio
  sequenceId : Option JSStr
deriving DecidableEq

/-- The validated request produced by `parseAudioPayload`. -/
structure ParsedPayload where
  audioBase64 : JSStr
  sourceLanguageCode : JSStr
  targetLanguageCode : JSStr
  recipientId : JSStr
  sampleRateHertz : Int
  encoding : JSStr
  sequenceId : Option JSStr
deriving DecidableEq

/-- The encoding normalization of `parseAudioPayload`
(`app/index.js` lines 189-195): trim and upper-case a string value, keep it
when allow-listed, otherwise fall back to `LINEAR16`. -/
def normalizeEncoding : Option JSStr → JSStr
  | none => "LINEAR16".toList
  | some e =>
    let n := jsToUpper (jsTrim e)
    if ALLOWED_ENCODINGS.contains n then n else "LINEAR16".toList

/-- `Number(data.sampleRateHertz || 16000)` (`app/index.js` line 197):
absent or zero (JS-falsy) values default to 16000. -/
def effectiveSampleRate : Option Int → Int
  | none => 16000
  | some n => if n = 0 then 16000 else n

/-- `parseAudioPayload` (`app/index.js` lines 172-221), with the checks in
source order: top-level object, recipient id, language resolution, encoding
normalization, sample-rate range, audio normalization, byte-size bound. -/
def parseAudioPayload (data : Option AudioPayload) : Except String ParsedPayload :=
  match data with
  | none => .error msgInvalidPayload
  | some d =>
    match d.toId with
    | none => .error msgMissingRecipient
    | some toStr =>
      if jsTrim toStr = [] then .error msgMissingRecipient
      else
        let sourceLanguageCode :=
          match d.language with
          | some l => if isValidLanguageCode l then jsTrim l else "en-US".toList
          | none => "en-US".toList
        let targetLanguageCode :=
          resolveTargetLanguage sourceLanguageCode d.targetLanguage
        let encoding := normalizeEncoding d.encoding
        let sampleRateHertz := effectiveSampleRate d.sampleRateHertz
        if sampleRateHertz < 8000 ∨ 48000 < sampleRateHertz then
          .error msgInvalidSampleRate
        else
          match normalizeAudioToBase64 d.audio with
          | .error e => .error e
          | .ok audioBase64 =>
            let audioSizeInBytes := base64DecodedLen audioBase64
            if audioSizeInBytes = 0 ∨ MAX_AUDIO_BYTES < audioSizeInBytes then
              .error msgInvalidAudioSize
            else
              .ok { audioBase64, sourceLanguageCode, targetLanguageCode,
                    recipientId := jsTrim toStr, sampleRateHertz, encoding,
                    sequenceId := d.sequenceId }

/-- Per-connection session state (`socket.data`, `app/index.js` lines
237-239).  The work queue holds the payloads of the audio items accepted but
not yet processed; `pendingSttRequests` is a JS number, modelled as `Int` so
that the `Math.max(0, ...)` floor is meaningful. -/
structure SocketState where
  sttRateTimestamps : List Nat
  pendingSttRequests : Int
  sttQueue : List (Option AudioPayload)
deriving DecidableEq

/-- The session state installed on connection (`app/index.js` lines 237-239). -/
def initialSocketState : SocketState :=
  { sttRateTimestamps := [], pendingSttRequests := 0, sttQueue := [] }

/-- The pruning filter of `isRateLimited` (`app/index.js` lines 158-160):
keep the timestamps with `now - timestamp < RATE_LIMIT_WINDOW_MS`. -/
def prunedTimestamps (now : Nat) (ts : List Nat) : List Nat :=
  ts.filter fun t => decide (now - t < RATE_LIMIT_WINDOW_MS)

/-- `isRateLimited` (`app/index.js` lines 156-170): prune the timestamp
list; at or above the ceiling, store the pruned list and report limited;
otherwise append the current instant and proceed. -/
def isRateLimited (now : Nat) (st : SocketState) : Bool × SocketState :=
  let recentTimestamps := prunedTimestamps now st.sttRateTimestamps
  if RATE_LIMIT_MAX_REQUESTS ≤ recentTimestamps.length then
    (true, { st with sttRateTimestamps := recentTimestamps })
  else
    (false, { st with sttRateTimestamps := recentTimestamps ++ [now] })

/-- Outcome of the external speech-to-text call (`client.recognize`):
either an asynchronous failure, or a response whose `results` each carry an
optional top-alternative transcript (`none` models a result with no
alternatives or no transcript field). -/
inductive SttOutcome where
  | failure
  | success (results : List (Option JSStr))
deriving DecidableEq

/-- Outcome of the external translation call
(`translationClient.translateText`): an asynchronous failure, or a response
with an optional `translations` list whose entries have an optional
`translatedText`. -/
inductive TranslateOutcome where
  | failure
  | success (translations : Option (List (Option JSStr)))
deriving DecidableEq

/-- `(sttResponse.results || []).map(r => r.alternatives?.[0]?.transcript
|| "").join(" ").trim()` (`app/index.js` lines 376-379). -/
def sttTranscription (results : List (Option JSStr)) : JSStr :=
  jsTrim (List.intercalate [' '] (results.map fun r => r.getD []))

/-- `translationResponse?.translations?.[0]?.translatedText ||
transcription` (`app/index.js` lines 405-407). -/
def translatedTextOf (transcription : JSStr) :
    Option (List (Option JSStr)) → JSStr
  | none => transcription
  | some l =>
    match l.head? with
    | none => transcription
    | some none => transcription
    | some (some t) => if t = [] then transcription else t

/-- JS falsiness of the `projectId` string (`if (!projectId)`). -/
def jsFalsyStr : Option JSStr → Bool
  | none => true
  | some s => s.isEmpty

/-- An outbound emission of the audio pipeline: an `sttError` back to the
sender, or an `sttResult` to the room of the recipient. -/
inductive Emission where
  | sttError (code : String) (message : String)
  | sttResult (text translated fromUser toUser : JSStr) (sequenceId : Option JSStr)
deriving DecidableEq

/-- Whether an emission is an `sttResult` whose translated text differs
from its transcript. -/
def resultKeepsTranscript : Emission → Bool
  | .sttError _ _ => true
  | .sttResult text translated _ _ _ => translated == text

/-- The emissions and external calls of one queued unit of work, after the
rate-limit gate (`app/index.js` lines 354-430).  The two booleans record
whether the speech-to-text and the translation collaborators were
invoked. -/
structure Decision where
  emissions : List Emission
  sttCalled : Bool
  translateCalled : Bool
deriving DecidableEq

/-- The body of a queued unit of work past the rate-limit gate: payload
validation, the speech-to-text call, the translation policy, and the result
emission, mirroring `app/index.js` lines 354-430 branch for branch. -/
def processDecision (user : JSStr) (projectId : Option JSStr)
    (data : Option AudioPayload) (stt : SttOutcome)
    (translation : TranslateOutcome) : Decision :=
  match parseAudioPayload data with
  | .error e => { emissions := [.sttError codeInvalidPayload e],
                  sttCalled := false, translateCalled := false }
  | .ok parsed =>
    match stt with
    | .failure =>
      { emissions := [.sttError codeProcessingFailed msgProcessingFailed],
        sttCalled := true, translateCalled := false }
    | .success results =>
      let transcription := sttTranscription results
      if transcription = [] then
        { emissions := [], sttCalled := true, translateCalled := false }
      else
        let sourceNorm :=
          normalizeTranslationLanguageCode (some parsed.sourceLanguageCode)
        if jsFalsyStr projectId then
          { emissions := [.sttResult transcription transcription user
              parsed.recipientId parsed.sequenceId],
            sttCalled := true, translateCalled := false }
        else if sourceNorm ≠ parsed.targetLanguageCode then
          match translation with
          | .failure =>
            { emissions := [.sttError codeProcessingFailed msgProcessingFailed],
              sttCalled := true, translateCalled := true }
          | .success ts =>
            let translated := translatedTextOf transcription ts
            { emissions := [.sttResult transcription translated user
                parsed.recipientId parsed.sequenceId],
              sttCalled := true, translateCalled := true }
        else
          { emissions := [.sttResult transcription transcription user
              parsed.recipientId parsed.sequenceId],
            sttCalled := true, translateCalled := false }

/-- Result of running one queued unit of work to completion. -/
structure ProcessResult where
  emissions : List Emission
  sttCalled : Bool
  translateCalled : Bool
  state : SocketState
deriving DecidableEq

/-- One queued unit of work, from the moment its turn in the serial queue
arrives until its `.finally` bookkeeping (`app/index.js` lines 343-437):
the rate-limit gate, then the processing body, and — on every exit path —
the `Math.max(0, pendingSttRequests - 1)` decrement. -/
def processAudioItem (now : Nat) (user : JSStr) (projectId : Option JSStr)
    (data : Option AudioPayload) (stt : SttOutcome)
    (translation : TranslateOutcome) (st : SocketState) : ProcessResult :=
  let rl := isRateLimited now st
  let d : Decision :=
    if rl.1 then
      { emissions := [.sttError codeRateLimited msgRateLimited],
        sttCalled := false, translateCalled := false }
    else processDecision user projectId data stt translation
  { emissions := d.emissions, sttCalled := d.sttCalled,
    translateCalled := d.translateCalled,
    state := { rl.2 with
      pendingSttRequests := max 0 (rl.2.pendingSttRequests - 1) } }

/-- Result of the submission-time part of the `audioRecording` handler. -/
structure SubmitResult where
  emissions : List Emission
  queued : Bool
  state : SocketState
deriving DecidableEq

/-- The submission-time part of the `audioRecording` handler
(`app/index.js` lines 335-343): the backpressure gate, the pending-count
increment, and the append of the unit of work to the serial queue. -/
def audioRecordingSubmit (data : Option AudioPayload) (st : SocketState) :
    SubmitResult :=
  if MAX_STT_PENDING_REQUESTS ≤ st.pendingSttRequests then
    { emissions := [.sttError codeBackpressure msgBackpressure],
      queued := false, state := st }
  else
    { emissions := [], queued := true,
      state := { st with
        pendingSttRequests := st.pendingSttRequests + 1,
        sttQueue := st.sttQueue ++ [data] } }

/-- An audio item on the serial promise chain, for the timing model:
`label` is its submission index and `delay` the (arbitrary) time its
external calls take to settle. -/
structure ChainItem where
  label : Nat
  delay : Nat
deriving DecidableEq

/-- The interval during which one chained unit of work was the running one,
together with its label.  Its outcome is emitted at `finishedAt`. -/
structure TimedRun where
  label : Nat
  startedAt : Nat
  finishedAt : Nat
deriving DecidableEq

/-- The semantics of `socket.data.sttQueue = socket.data.sttQueue.then(...)`
(`app/index.js` line 343): each unit of work starts only when the previous
chain link has settled, whatever the delays of the external calls are. -/
def runChain (t : Nat) : List ChainItem → List TimedRun
  | [] => []
  | item :: rest =>
    { label := item.label, startedAt := t, finishedAt := t + item.delay } ::
      runChain (t + item.delay) rest

/-! Concrete fixtures used to evaluate the theorems on closed inputs. -/

/-- A well-formed `audioRecording` payload whose requested target language
coincides with the coarse form of its source language. -/
def sampleGoodPayload : AudioPayload :=
  { toId := some ("B".toList), language := some ("en-US".toList),
    targetLanguage := some ("en".toList), encoding := none,
    sampleRateHertz := none, audio := .str ("aGVsbG8=".toList),
    sequenceId := none }

/-- The parse of `sampleGoodPayload`. -/
def goodParsed : ParsedPayload :=
  { audioBase64 := "aGVsbG8=".toList, sourceLanguageCode := "en-US".toList,
    targetLanguageCode := "en".toList, recipientId := "B".toList,
    sampleRateHertz := 16000, encoding := "LINEAR16".toList,
    sequenceId := none }

/-- `sampleGoodPayload` with an out-of-range supplied sample rate. -/
def samplePayload4000 : AudioPayload :=
  { sampleGoodPayload with sampleRateHertz := some 4000 }

/-- `sampleGoodPayload` with a lower-case, whitespace-padded encoding. -/
def weirdEncodingPayload : AudioPayload :=
  { sampleGoodPayload with encoding := some (" linear16 ".toList) }

/-- `sampleGoodPayload` with a numeric `audio` field. -/
def numAudioPayload : AudioPayload :=
  { sampleGoodPayload with audio := .num 5 }

example : parseAudioPayload (some sampleGoodPayload) = .ok goodParsed := rfl

/-! Helper lemmas. -/

theorem runChain_bounds (items : List ChainItem) (t : Nat) :
    ∀ r ∈ runChain t items, t ≤ r.startedAt ∧ r.startedAt ≤ r.finishedAt := by
  induction items generalizing t with
  | nil => simp [runChain]
  | cons i rest ih =>
    intro r hr
    simp only [runChain, List.mem_cons] at hr
    rcases hr with rfl | hr
    · exact ⟨le_refl _, Nat.le_add_right _ _⟩
    · have h := ih (t + i.delay) r hr
      exact ⟨le_trans (Nat.le_add_right _ _) h.1, h.2⟩

theorem jsStartsWith_append (l s : JSStr) : jsStartsWith (l ++ s) l = true := by
  induction l with
  | nil => cases s <;> rfl
  | cons c cs ih => simp [jsStartsWith, ih]

theorem jsContains_append (a b : JSStr) (c : Char) :
    (a ++ b).contains c = (a.contains c || b.contains c) := by
  induction a with
  | nil => simp
  | cons x xs ih => simp [List.contains_cons, ih, Bool.or_assoc]

theorem contains_append_comma (x b : JSStr) :
    (x ++ ',' :: b).contains ',' = true := by
  rw [jsContains_append]
  simp [List.contains_cons]

theorem dropThroughChar_append (x b : JSStr) (hx : x.contains ',' = false) :
    dropThroughChar ',' (x ++ ',' :: b) = b := by
  induction x with
  | nil => simp [dropThroughChar]
  | cons c xs ih =>
    rw [List.contains_cons, Bool.or_eq_false_iff] at hx
    have hc : (c == ',') = false := by
      cases h : c == ',' with
      | true =>
        exact absurd hx.1 (by simp_all [BEq.comm])
      | false => rfl
    simp only [List.cons_append, dropThroughChar, hc]
    exact ih hx.2

theorem removeJsWs_idem (s : JSStr) :
    removeJsWs (removeJsWs s) = removeJsWs s := by
  induction s with
  | nil => rfl
  | cons c cs ih =>
    by_cases h : isJsWs c = true
    · simp [removeJsWs, h] at ih ⊢
    · simp only [Bool.not_eq_true] at h
      simp [removeJsWs, List.filter_cons, h] at ih ⊢

theorem isRateLimited_pending (now : Nat) (st : SocketState) :
    ((isRateLimited now st).2).pendingSttRequests = st.pendingSttRequests := by
  unfold isRateLimited
  dsimp only
  split <;> rfl

/-! The claims. -/

/-- C1: audio items on the serial work queue of a connection are processed
strictly one-at-a-time and their outcomes are emitted in submission order,
for every assignment of external-call delays (in particular when an earlier
call of an earlier item is slower than that of a later one). -/
theorem c1_serial_order (t : Nat) (items : List ChainItem) :
    (runChain t items).map TimedRun.label = items.map ChainItem.label ∧
    List.Pairwise (fun a b => a.finishedAt ≤ b.startedAt) (runChain t items) ∧
    List.Forall (fun r => r.startedAt ≤ r.finishedAt) (runChain t items) := by
  induction items generalizing t with
  | nil => simp [runChain, List.Forall]
  | cons i rest ih =>
    obtain ⟨h1, h2, h3⟩ := ih (t + i.delay)
    refine ⟨by simp [runChain, h1], ?_, ?_⟩
    · refine List.Pairwise.cons ?_ h2
      intro b hb
      exact (runChain_bounds rest (t + i.delay) b hb).1
    · simp only [runChain, List.forall_cons]
      exact ⟨Nat.le_add_right _ _, h3⟩

/-- C2: when the pending count has reached `MAX_STT_PENDING_REQUESTS`, the
inbound audio event immediately yields an `STT_BACKPRESSURE` error, is not
queued, and leaves the session state (pending count and queue) unchanged;
only queued items ever reach the external services. -/
theorem c2_backpressure (data : Option AudioPayload) (st : SocketState)
    (h : MAX_STT_PENDING_REQUESTS ≤ st.pendingSttRequests) :
    (audioRecordingSubmit data st).emissions
        = [Emission.sttError codeBackpressure msgBackpressure] ∧
    (audioRecordingSubmit data st).queued = false ∧
    (audioRecordingSubmit data st).state = st := by
  simp [audioRecordingSubmit, h]

theorem c2_backpressure_witness :
    MAX_STT_PENDING_REQUESTS ≤ (8 : Int) ∧
    (audioRecordingSubmit none ⟨[], 8, []⟩).emissions
        = [Emission.sttError codeBackpressure msgBackpressure] ∧
    (audioRecordingSubmit none ⟨[], 8, []⟩).queued = false ∧
    (audioRecordingSubmit none ⟨[], 8, []⟩).state = ⟨[], 8, []⟩ :=
  ⟨by decide, c2_backpressure none ⟨[], 8, []⟩ (by decide)⟩

/-- C3 counterexample: `normalizeTranslationLanguageCode` does not collapse
every code into the two supported coarse forms — `"fr-FR"` normalizes to
`"fr"`, which is neither `"en"` nor `"my"`. -/
theorem c3_counterexample :
    normalizeTranslationLanguageCode (some ("fr-FR".toList)) ≠ "en".toList ∧
    normalizeTranslationLanguageCode (some ("fr-FR".toList)) ≠ "my".toList := by
  decide

/-- C3 amended: it is `resolveTargetLanguage` that always lands in one of
the two supported coarse forms: for every source and requested target it
returns `"en"` or `"my"`, while `normalizeTranslationLanguageCode` may
return other prefixes (e.g. `"fr"`). -/
theorem c3_resolve_binary (src : JSStr) (req : Option JSStr) :
    resolveTargetLanguage src req = "en".toList ∨
    resolveTargetLanguage src req = "my".toList := by
  unfold resolveTargetLanguage
  cases req with
  | none =>
    dsimp only
    split
    · exact Or.inr rfl
    · exact Or.inl rfl
  | some r =>
    dsimp only
    split
    · split
      · rename_i h
        rcases h with h | h
        · exact Or.inl h
        · exact Or.inr h
      · split
        · exact Or.inr rfl
        · exact Or.inl rfl
    · split
      · exact Or.inr rfl
      · exact Or.inl rfl

/-- C6: every queued unit of work decrements the pending count exactly once
when it finishes, on every exit path (rate-limit rejection, validation
failure, external failure, silent stop, success), with a floor at zero, so
the count never becomes negative. -/
theorem c6_pending_decrement (now : Nat) (user : JSStr)
    (projectId : Option JSStr) (data : Option AudioPayload) (stt : SttOutcome)
    (translation : TranslateOutcome) (st : SocketState) :
    (processAudioItem now user projectId data stt translation st).state.pendingSttRequests
        = max 0 (st.pendingSttRequests - 1) ∧
    0 ≤ (processAudioItem now user projectId data stt translation st).state.pendingSttRequests := by
  constructor
  · show max 0 ((isRateLimited now st).2.pendingSttRequests - 1) = _
    rw [isRateLimited_pending]
  · exact le_max_left 0 _

/-- C4 counterexample: an inbound audio event whose supplied sample rate
(4000 Hz) lies outside `[8000, 48000]` is rejected with the
`Invalid sample rate` validation error — parsing does not proceed with the
default of 16000. -/
theorem c4_counterexample :
    parseAudioPayload (some samplePayload4000)
        = Except.error msgInvalidSampleRate := rfl

/-- C4 amended: the default of 16000 applies only when `sampleRateHertz` is
absent or JS-falsy (0); when the effective sample rate lies outside
`[8000, 48000]`, parsing fails with `Invalid sample rate` (surfaced to the
sender as `STT_INVALID_PAYLOAD`) instead of proceeding with the default. -/
theorem c4_sample_rate (p : AudioPayload) (toStr : JSStr)
    (hto : p.toId = some toStr) (hne : ¬ jsTrim toStr = []) :
    ((effectiveSampleRate p.sampleRateHertz < 8000 ∨
        48000 < effectiveSampleRate p.sampleRateHertz) →
      parseAudioPayload (some p) = .error msgInvalidSampleRate) ∧
    (∀ parsed, parseAudioPayload (some p) = .ok parsed →
      parsed.sampleRateHertz = effectiveSampleRate p.sampleRateHertz) := by
  constructor
  · intro hrange
    unfold parseAudioPayload
    dsimp only
    rw [hto]
    dsimp only
    rw [if_neg hne, if_pos hrange]
  · intro parsed hok
    unfold parseAudioPayload at hok
    dsimp only at hok
    rw [hto] at hok
    dsimp only at hok
    rw [if_neg hne] at hok
    split at hok
    · exact absurd hok (by simp)
    · split at hok
      · exact absurd hok (by simp)
      · split at hok
        · exact absurd hok (by simp)
        · rw [Except.ok.injEq] at hok
          rw [← hok]

theorem c4_sample_rate_witness :
    parseAudioPayload (some samplePayload4000)
        = Except.error msgInvalidSampleRate ∧
    goodParsed.sampleRateHertz = effectiveSampleRate none :=
  ⟨(c4_sample_rate samplePayload4000 ("B".toList) rfl (by decide)).1 (by decide),
   (c4_sample_rate sampleGoodPayload ("B".toList) rfl (by decide)).2 goodParsed rfl⟩

/-- C5: when the turn of a queued unit arrives, timestamps outside the trailing
window are pruned; if the pruned count has reached the ceiling, an
`STT_RATE_LIMITED` error is emitted, no external call is made, nothing is
appended and the stored list is the pruned one; otherwise the current
instant is appended and processing continues. -/
theorem c5_rate_limit (now : Nat) (user : JSStr) (projectId : Option JSStr)
    (data : Option AudioPayload) (stt : SttOutcome)
    (translation : TranslateOutcome) (st : SocketState) :
    (RATE_LIMIT_MAX_REQUESTS ≤ (prunedTimestamps now st.sttRateTimestamps).length →
      (processAudioItem now user projectId data stt translation st).emissions
          = [Emission.sttError codeRateLimited msgRateLimited] ∧
      (processAudioItem now user projectId data stt translation st).sttCalled = false ∧
      (processAudioItem now user projectId data stt translation st).translateCalled = false ∧
      (processAudioItem now user projectId data stt translation st).state.sttRateTimestamps
          = prunedTimestamps now st.sttRateTimestamps) ∧
    ((prunedTimestamps now st.sttRateTimestamps).length < RATE_LIMIT_MAX_REQUESTS →
      (processAudioItem now user projectId data stt translation st).state.sttRateTimestamps
          = prunedTimestamps now st.sttRateTimestamps ++ [now]) := by
  constructor
  · intro h
    simp [processAudioItem, isRateLimited, h]
  · intro h
    simp [processAudioItem, isRateLimited, not_le.mpr h]

theorem c5_rate_limit_witness :
    (processAudioItem 50 [] none none .failure .failure
        ⟨List.replicate 20 45, 1, []⟩).emissions
      = [Emission.sttError codeRateLimited msgRateLimited] ∧
    (processAudioItem 50 [] none none .failure .failure
        initialSocketState).state.sttRateTimestamps = [50] :=
  ⟨((c5_rate_limit 50 [] none none .failure .failure
      ⟨List.replicate 20 45, 1, []⟩).1 (by decide)).1,
   (c5_rate_limit 50 [] none none .failure .failure
      initialSocketState).2 (by decide)⟩

/-- C7: when the coarse-normalized source language equals the resolved
target language of a validated item, the translation collaborator is never
invoked and any emitted `sttResult` carries the transcript, unchanged, as
its translated text. -/
theorem c7_skip_translation (now : Nat) (user : JSStr)
    (projectId : Option JSStr) (data : Option AudioPayload) (stt : SttOutcome)
    (translation : TranslateOutcome) (st : SocketState) (parsed : ParsedPayload)
    (hparse : parseAudioPayload data = .ok parsed)
    (heq : normalizeTranslationLanguageCode (some parsed.sourceLanguageCode)
        = parsed.targetLanguageCode) :
    (processAudioItem now user projectId data stt translation st).translateCalled = false ∧
    (processAudioItem now user projectId data stt translation st).emissions.all
        resultKeepsTranscript = true := by
  unfold processAudioItem
  dsimp only
  cases hrl : (isRateLimited now st).1 with
  | true => simp [resultKeepsTranscript]
  | false =>
    simp only [Bool.false_eq_true, if_false]
    cases stt with
    | failure => simp [processDecision, hparse, resultKeepsTranscript]
    | success results =>
      by_cases ht : sttTranscription results = []
      · simp [processDecision, hparse, ht]
      · by_cases hp : jsFalsyStr projectId = true
        · simp [processDecision, hparse, ht, hp, resultKeepsTranscript]
        · simp [processDecision, hparse, ht, hp, heq, resultKeepsTranscript]

theorem c7_skip_translation_witness :
    (processAudioItem 0 ("A".toList) (some ("proj".toList))
        (some sampleGoodPayload) (.success [some ("hello".toList)]) .failure
        initialSocketState).translateCalled = false ∧
    (processAudioItem 0 ("A".toList) (some ("proj".toList))
        (some sampleGoodPayload) (.success [some ("hello".toList)]) .failure
        initialSocketState).emissions.all resultKeepsTranscript = true :=
  c7_skip_translation 0 ("A".toList) (some ("proj".toList))
    (some sampleGoodPayload) (.success [some ("hello".toList)]) .failure
    initialSocketState goodParsed rfl (by decide)

/-- C8: a validated item whose speech-to-text response concatenates and
trims to an empty transcript stops silently — no `sttResult` and no
`sttError` is emitted, and the translation collaborator is not invoked. -/
theorem c8_empty_silent (now : Nat) (user : JSStr) (projectId : Option JSStr)
    (data : Option AudioPayload) (results : List (Option JSStr))
    (translation : TranslateOutcome) (st : SocketState) (parsed : ParsedPayload)
    (hnl : (prunedTimestamps now st.sttRateTimestamps).length < RATE_LIMIT_MAX_REQUESTS)
    (hparse : parseAudioPayload data = .ok parsed)
    (hempty : sttTranscription results = []) :
    (processAudioItem now user projectId data (.success results) translation st).emissions
        = [] ∧
    (processAudioItem now user projectId data (.success results) translation st).translateCalled
        = false := by
  simp [processAudioItem, isRateLimited, not_le.mpr hnl, processDecision,
    hparse, hempty]

theorem c8_empty_silent_witness :
    (processAudioItem 0 ("A".toList) none (some sampleGoodPayload)
        (.success []) .failure initialSocketState).emissions = [] ∧
    (processAudioItem 0 ("A".toList) none (some sampleGoodPayload)
        (.success []) .failure initialSocketState).translateCalled = false :=
  c8_empty_silent 0 ("A".toList) none (some sampleGoodPayload) [] .failure
    initialSocketState goodParsed (by decide) rfl rfl

/-- C9: the encoding field is trimmed and upper-cased before the allow-list
check (so cased or padded variants of an allowed encoding are accepted);
a non-string or non-allow-listed encoding is silently replaced by
`LINEAR16` and never changes whether parsing succeeds. -/
theorem c9_encoding (p : AudioPayload) :
    (∀ parsed, parseAudioPayload (some p) = .ok parsed →
        parsed.encoding = normalizeEncoding p.encoding) ∧
    (∀ s, normalizeEncoding (some s) =
        (if ALLOWED_ENCODINGS.contains (jsToUpper (jsTrim s)) then
          jsToUpper (jsTrim s)
         else "LINEAR16".toList)) ∧
    normalizeEncoding none = "LINEAR16".toList ∧
    (∀ e, (parseAudioPayload (some { p with encoding := e })).isOk
        = (parseAudioPayload (some p)).isOk) := by
  obtain ⟨pto, lang, tgt, enc, sr, audio, seq⟩ := p
  refine ⟨?_, fun s => rfl, rfl, ?_⟩
  · intro parsed hok
    unfold parseAudioPayload at hok
    dsimp only at hok
    cases pto with
    | none => exact absurd hok (by simp)
    | some toStr =>
      dsimp only at hok
      split at hok
      · exact absurd hok (by simp)
      · split at hok
        · exact absurd hok (by simp)
        · split at hok
          · exact absurd hok (by simp)
          · split at hok
            · exact absurd hok (by simp)
            · rw [Except.ok.injEq] at hok
              rw [← hok]
  · intro e
    unfold parseAudioPayload
    dsimp only
    cases pto with
    | none => rfl
    | some toStr =>
      dsimp only
      split
      · rfl
      · split
        · rfl
        · split
          · rfl
          · split
            · rfl
            · rfl

theorem c9_encoding_witness :
    goodParsed.encoding = normalizeEncoding (some (" linear16 ".toList)) ∧
    (parseAudioPayload (some { weirdEncodingPayload with
        encoding := some ("BOGUS".toList) })).isOk
      = (parseAudioPayload (some weirdEncodingPayload)).isOk :=
  ⟨(c9_encoding weirdEncodingPayload).1 goodParsed rfl,
   (c9_encoding weirdEncodingPayload).2.2.2 (some ("BOGUS".toList))⟩

/-- C10: audio payload normalization accepts plain base64 strings, data-URI
strings (the prefix up to and including the first comma is stripped),
strings with whitespace (removed before validation), and `Buffer` /
`Uint8Array` / number-array values (base64-encoded); every other payload
type (number, plain object, `null`) throws, and the pipeline reports any
such parse failure to the sender as `STT_INVALID_PAYLOAD`. -/
theorem c10_audio_normalization :
    (∀ bytes, normalizeAudioToBase64 (.buffer bytes)
        = .ok (base64EncodeBytes bytes)) ∧
    (∀ bytes, normalizeAudioToBase64 (.uint8array bytes)
        = .ok (base64EncodeBytes bytes)) ∧
    (∀ nums, normalizeAudioToBase64 (.numArray nums)
        = .ok (base64EncodeBytes nums)) ∧
    (∀ n, normalizeAudioToBase64 (.num n) = .error msgUnsupportedAudio) ∧
    normalizeAudioToBase64 .obj = .error msgUnsupportedAudio ∧
    normalizeAudioToBase64 .jsNull = .error msgUnsupportedAudio ∧
    (∀ pre body, pre.contains ',' = false →
      jsStartsWith body ("data:".toList) = false →
      normalizeAudioToBase64 (.str ("data:".toList ++ pre ++ ',' :: body))
          = normalizeAudioToBase64 (.str body)) ∧
    (∀ s, jsStartsWith s ("data:".toList) = false →
      jsStartsWith (removeJsWs s) ("data:".toList) = false →
      normalizeAudioToBase64 (.str s)
          = normalizeAudioToBase64 (.str (removeJsWs s))) ∧
    (∀ now user projectId st data stt translation m,
      (prunedTimestamps now st.sttRateTimestamps).length < RATE_LIMIT_MAX_REQUESTS →
      parseAudioPayload data = .error m →
      (processAudioItem now user projectId data stt translation st).emissions
          = [Emission.sttError codeInvalidPayload m]) := by
  refine ⟨fun _ => rfl, fun _ => rfl, fun _ => rfl, fun _ => rfl, rfl, rfl,
    ?_, ?_, ?_⟩
  · intro pre body hpre hbody
    have hsw : jsStartsWith (("data:".toList ++ pre) ++ ',' :: body)
        ("data:".toList) = true := by
      rw [List.append_assoc]
      exact jsStartsWith_append _ _
    have hx : ("data:".toList ++ pre).contains ',' = false := by
      rw [jsContains_append, hpre]
      decide
    have hbody2 : jsStartsWith body (['d', 'a', 't', 'a', ':'] : JSStr) = false :=
      hbody
    unfold normalizeAudioToBase64
    dsimp only
    rw [if_pos hsw, if_neg (by simp [hbody2])]
    unfold jsSliceAfterComma
    rw [if_pos (contains_append_comma _ _), dropThroughChar_append _ _ hx]
  · intro s hs hs2
    have hsA : jsStartsWith s (['d', 'a', 't', 'a', ':'] : JSStr) = false := hs
    have hsB : jsStartsWith (removeJsWs s) (['d', 'a', 't', 'a', ':'] : JSStr)
        = false := hs2
    unfold normalizeAudioToBase64
    dsimp only
    rw [if_neg (by simp [hsA]), if_neg (by simp [hsB])]
    unfold normalizeBase64String
    rw [removeJsWs_idem]
  · intro now user projectId st data stt translation m hnl hparse
    simp [processAudioItem, isRateLimited, not_le.mpr hnl, processDecision,
      hparse]

theorem c10_audio_normalization_witness :
    normalizeAudioToBase64 (.buffer [104, 105])
        = Except.ok (base64EncodeBytes [104, 105]) ∧
    normalizeAudioToBase64 (.num 5) = Except.error msgUnsupportedAudio ∧
    normalizeAudioToBase64
        (.str ("data:".toList ++ "audio/webm;base64".toList ++ ',' :: "aGVsbG8=".toList))
        = normalizeAudioToBase64 (.str ("aGVsbG8=".toList)) ∧
    normalizeAudioToBase64 (.str ("aG Vs\tbG8=".toList))
        = normalizeAudioToBase64 (.str (removeJsWs ("aG Vs\tbG8=".toList))) ∧
    (processAudioItem 0 ("A".toList) none (some numAudioPayload) .failure
        .failure initialSocketState).emissions
      = [Emission.sttError codeInvalidPayload msgUnsupportedAudio] := by
  obtain ⟨h1, h2, h3, h4, h5, h6, h7, h8, h9⟩ := c10_audio_normalization
  exact ⟨h1 [104, 105], h4 5,
    h7 ("audio/webm;base64".toList) ("aGVsbG8=".toList) (by decide) (by decide),
    h8 ("aG Vs\tbG8=".toList) (by decide) (by decide),
    h9 0 ("A".toList) none initialSocketState (some numAudioPayload) .failure
      .failure msgUnsupportedAudio (by decide) rfl⟩



